import Mathlib

/-!
Verification development for the Smart-Travel-Scout search endpoint
(`src/app/api/search/route.ts`): a shallow embedding of the inventory
catalog, the zod request/response schemas, the JSON sanitize pipeline
(strict-then-lenient), the in-memory rate limiter, and the POST handler,
together with theorems about the specified properties.
-/

/-- JSON values, as produced by the host `JSON.parse`. Numbers are modelled
as integers (all numbers occurring in this program's data are integers). -/
inductive Json where
  | null : Json
  | bool : Bool → Json
  | num : Int → Json
  | str : String → Json
  | arr : List Json → Json
  | obj : List (String × Json) → Json

/-- Whether a JSON value is an array (`Array.isArray`). -/
def Json.isArr : Json → Bool
  | Json.arr _ => true
  | _ => false

/-- Skip JSON whitespace. -/
def skipWs : List Char → List Char
  | c :: cs => if c = ' ' ∨ c = '\n' ∨ c = '\t' ∨ c = '\r' then skipWs cs else c :: cs
  | [] => []

/-- Decode a single-character JSON string escape. -/
def escChar : Char → Option Char
  | '"' => some '"'
  | '\\' => some '\\'
  | '/' => some '/'
  | 'b' => some '\x08'
  | 'f' => some '\x0C'
  | 'n' => some '\n'
  | 'r' => some '\r'
  | 't' => some '\t'
  | _ => none

/-- Hex digit value, if any. -/
def hexVal (c : Char) : Option Nat :=
  if '0' ≤ c ∧ c ≤ '9' then some (c.toNat - 48)
  else if 'a' ≤ c ∧ c ≤ 'f' then some (c.toNat - 87)
  else if 'A' ≤ c ∧ c ≤ 'F' then some (c.toNat - 55)
  else none

/-- Parse the body of a JSON string literal (after the opening quote),
returning the decoded characters and the remaining input. -/
def parseStrChars : List Char → Option (List Char × List Char)
  | [] => none
  | '"' :: rest => some ([], rest)
  | '\\' :: 'u' :: h1 :: h2 :: h3 :: h4 :: rest =>
    match hexVal h1, hexVal h2, hexVal h3, hexVal h4 with
    | some a, some b, some c, some d =>
      (parseStrChars rest).map
        (fun p => (Char.ofNat (a * 4096 + b * 256 + c * 16 + d) :: p.1, p.2))
    | _, _, _, _ => none
  | '\\' :: e :: rest =>
    match escChar e with
    | some c => (parseStrChars rest).map (fun p => (c :: p.1, p.2))
    | none => none
  | c :: rest => (parseStrChars rest).map (fun p => (c :: p.1, p.2))

/-- Parse a run of decimal digits, accumulating into `acc`. -/
def parseDigits (acc : Nat) : List Char → Nat × List Char
  | c :: cs =>
    if c.isDigit then parseDigits (acc * 10 + (c.toNat - 48)) cs else (acc, c :: cs)
  | [] => (acc, [])

/-- Insert a key/value pair into an object member list, JS-object style:
a duplicate key keeps its original position but takes the new value. -/
def insertMember (fields : List (String × Json)) (k : String) (v : Json) :
    List (String × Json) :=
  if fields.any (fun p => p.1 == k) then
    fields.map (fun p => if p.1 == k then (k, v) else p)
  else fields ++ [(k, v)]

/-- Collapse raw parsed members into JS-object member semantics. -/
def buildObj (pairs : List (String × Json)) : List (String × Json) :=
  pairs.foldl (fun acc p => insertMember acc p.1 p.2) []

mutual

/-- Fuel-indexed recursive-descent parser for one JSON value. -/
def parseValue : Nat → List Char → Option (Json × List Char)
  | 0, _ => none
  | fuel + 1, cs =>
    match skipWs cs with
    | 'n' :: 'u' :: 'l' :: 'l' :: rest => some (Json.null, rest)
    | 't' :: 'r' :: 'u' :: 'e' :: rest => some (Json.bool true, rest)
    | 'f' :: 'a' :: 'l' :: 's' :: 'e' :: rest => some (Json.bool false, rest)
    | '"' :: rest =>
      (parseStrChars rest).map (fun p => (Json.str (String.mk p.1), p.2))
    | '[' :: rest =>
      (match skipWs rest with
       | ']' :: r => some (Json.arr [], r)
       | cs2 => (parseItems fuel cs2).map (fun p => (Json.arr p.1, p.2)))
    | '\x7b' :: rest =>
      (match skipWs rest with
       | '\x7d' :: r => some (Json.obj [], r)
       | cs2 => (parseMembers fuel cs2).map (fun p => (Json.obj (buildObj p.1), p.2)))
    | '-' :: c :: rest =>
      if c.isDigit then
        let p := parseDigits (c.toNat - 48) rest
        some (Json.num (-(p.1 : Int)), p.2)
      else none
    | c :: rest =>
      if c.isDigit then
        let p := parseDigits (c.toNat - 48) rest
        some (Json.num (p.1 : Int), p.2)
      else none
    | [] => none

/-- Parse one or more comma-separated array items up to `]`. -/
def parseItems : Nat → List Char → Option (List Json × List Char)
  | 0, _ => none
  | fuel + 1, cs =>
    match parseValue fuel cs with
    | none => none
    | some (j, rest) =>
      match skipWs rest with
      | ',' :: rest2 => (parseItems fuel rest2).map (fun p => (j :: p.1, p.2))
      | ']' :: rest2 => some ([j], rest2)
      | _ => none

/-- Parse one or more comma-separated object members up to the closing brace. -/
def parseMembers : Nat → List Char → Option (List (String × Json) × List Char)
  | 0, _ => none
  | fuel + 1, cs =>
    match skipWs cs with
    | '"' :: rest =>
      match parseStrChars rest with
      | none => none
      | some (kcs, rest2) =>
        match skipWs rest2 with
        | ':' :: rest3 =>
          match parseValue fuel rest3 with
          | none => none
          | some (v, rest4) =>
            match skipWs rest4 with
            | ',' :: rest5 =>
              (parseMembers fuel rest5).map
                (fun p => ((String.mk kcs, v) :: p.1, p.2))
            | '\x7d' :: rest5 => some ([(String.mk kcs, v)], rest5)
            | _ => none
        | _ => none
    | _ => none

end

/-- `JSON.parse`: parse a whole string as one JSON value (trailing
whitespace only), `none` on syntax error. -/
def parseJson (s : String) : Option Json :=
  match parseValue (2 * s.length + 2) s.data with
  | some (j, rest) => if skipWs rest = [] then some j else none
  | none => none

/-- JS property access on a parsed object (members are already collapsed
to JS-object semantics by `buildObj`, so plain first-match lookup). -/
def getField (fields : List (String × Json)) (key : String) : Option Json :=
  (fields.find? (fun p => p.1 == key)).map Prod.snd

/-- An inventory record (`INVENTORY` element in `route.ts`). -/
structure InventoryItem where
  id : Int
  title : String
  location : String
  price : Int
  tags : List String
deriving DecidableEq

/-- The strict local inventory — source of truth (`INVENTORY`). -/
def INVENTORY : List InventoryItem :=
  [⟨1, "High-Altitude Tea Trails", "Nuwara Eliya", 120, ["cold", "nature", "hiking"]⟩,
   ⟨2, "Coastal Heritage Wander", "Galle Fort", 45, ["history", "culture", "walking"]⟩,
   ⟨3, "Wild Safari Expedition", "Yala", 250, ["animals", "adventure", "photography"]⟩,
   ⟨4, "Surf & Chill Retreat", "Arugam Bay", 80, ["beach", "surfing", "young-vibe"]⟩,
   ⟨5, "Ancient City Exploration", "Sigiriya", 110, ["history", "climbing", "view"]⟩]

/-- Valid IDs derived from the inventory (`VALID_IDS = INVENTORY.map(i => i.id)`). -/
def VALID_IDS : List Int := INVENTORY.map (fun i => i.id)

/-- A validated AI match: `{id, reason}`. -/
structure AiMatch where
  id : Int
  reason : String
deriving DecidableEq

/-- One element of `AiMatchSchema`: a zod object with an integer `id`
refined to lie in `VALID_IDS` and a `reason` string of length ≥ 1;
unknown keys are stripped. `none` models a zod issue on this element. -/
def parseAiMatch (j : Json) : Option AiMatch :=
  match j with
  | Json.obj fields =>
    match getField fields "id", getField fields "reason" with
    | some (Json.num n), some (Json.str s) =>
      if n ∈ VALID_IDS ∧ 1 ≤ s.length then some ⟨n, s⟩ else none
    | _, _ => none
  | _ => none

/-- `AiMatchSchema.safeParse` on the candidate list: succeeds with the
parsed list iff every element validates. -/
def strictValidate : List Json → Option (List AiMatch)
  | [] => some []
  | j :: rest =>
    match parseAiMatch j, strictValidate rest with
    | some m, some ms => some (m :: ms)
    | _, _ => none

/-- The lenient fallback filter:
`candidate.filter((m) => VALID_IDS.includes(m?.id) && typeof m?.reason === 'string')`,
followed by the destructuring of `id` and `reason` done at the assembler. -/
def lenientFilter (candidate : List Json) : List AiMatch :=
  candidate.filterMap fun j =>
    match j with
    | Json.obj fields =>
      match getField fields "id", getField fields "reason" with
      | some (Json.num n), some (Json.str s) =>
        if n ∈ VALID_IDS then some ⟨n, s⟩ else none
      | _, _ => none
    | _ => none

/-- Candidate-list extraction: a bare array is used as-is; an object
contributes its first array-valued member (`Object.values(...).find(Array.isArray) ?? []`);
anything else yields the empty candidate list (primitives have no
array-valued `Object.values`; a `null` parse throws and is caught,
which also nets an empty match list). -/
def toCandidate : Json → List Json
  | Json.arr xs => xs
  | Json.obj fields =>
    match (fields.map Prod.snd).find? Json.isArr with
    | some (Json.arr xs) => xs
    | _ => []
  | _ => []

/-- Steps 4 of the handler after a successful `JSON.parse`: candidate
extraction, then strict schema validation with lenient per-element
fallback. -/
def sanitizeJson (j : Json) : List AiMatch :=
  match strictValidate (toCandidate j) with
  | some ms => ms
  | none => lenientFilter (toCandidate j)

/-- The response sanitizer over the raw AI text: `JSON.parse` inside
`try`, empty match list on any parse failure. -/
def sanitize (rawText : String) : List AiMatch :=
  match parseJson rawText with
  | some j => sanitizeJson j
  | none => []

/-- A rate-limiter entry: `{ count, windowStart }`. -/
structure RateLimitEntry where
  count : Nat
  windowStart : Int
deriving DecidableEq

/-- `RATE_LIMIT = 5`. -/
def RATE_LIMIT : Nat := 5

/-- `RATE_WINDOW_MS = 60_000`. -/
def RATE_WINDOW_MS : Int := 60000

/-- The `ipRequestMap`: insertion-ordered map from client id to entry. -/
abbrev RLMap := List (String × RateLimitEntry)

/-- `Map.get`. -/
def mapGet (m : RLMap) (k : String) : Option RateLimitEntry :=
  (m.find? (fun p => p.1 == k)).map Prod.snd

/-- `Map.set`: overwrite in place if the key exists, else append. -/
def mapSet (m : RLMap) (k : String) (v : RateLimitEntry) : RLMap :=
  if m.any (fun p => p.1 == k) then
    m.map (fun p => if p.1 == k then (k, v) else p)
  else m ++ [(k, v)]

/-- `isRateLimited(ip)` at time `now`: returns the boolean result together
with the map after the call (state passed explicitly). -/
def isRateLimited (now : Int) (ip : String) (m : RLMap) : Bool × RLMap :=
  match mapGet m ip with
  | none => (false, mapSet m ip ⟨1, now⟩)
  | some entry =>
    if now - entry.windowStart > RATE_WINDOW_MS then (false, mapSet m ip ⟨1, now⟩)
    else if RATE_LIMIT ≤ entry.count then (true, m)
    else (false, mapSet m ip ⟨entry.count + 1, entry.windowStart⟩)

/-- zod's name for a JSON value's type, as used in invalid-type messages. -/
def jsonTypeName : Json → String
  | Json.null => "null"
  | Json.bool _ => "boolean"
  | Json.num _ => "number"
  | Json.str _ => "string"
  | Json.arr _ => "array"
  | Json.obj _ => "object"

/-- `RequestSchema.safeParse` on the (already JSON-parsed) body, returning
the prompt or the first zod issue's message. -/
def validateRequest (body : Json) : Except String String :=
  match body with
  | Json.obj fields =>
    match getField fields "prompt" with
    | none => Except.error "prompt is required"
    | some (Json.str s) =>
      if s.length < 1 then Except.error "prompt cannot be empty"
      else if 500 < s.length then Except.error "prompt must be 500 characters or fewer"
      else Except.ok s
    | some v => Except.error ("Expected string, received " ++ jsonTypeName v)
  | v => Except.error ("Expected object, received " ++ jsonTypeName v)

/-- A search result: inventory fields plus the AI-supplied reason. -/
structure SearchResult where
  id : Int
  title : String
  location : String
  price : Int
  tags : List String
  reason : String
deriving DecidableEq

/-- Step 5 of the handler: map validated matches back to full inventory
records, dropping (extra safety) any id without an inventory item. -/
def assemble (ms : List AiMatch) : List SearchResult :=
  ms.filterMap fun m =>
    (INVENTORY.find? (fun inv => inv.id == m.id)).map fun item =>
      ⟨item.id, item.title, item.location, item.price, item.tags, m.reason⟩

/-- Outcome of the AI gateway call: a thrown provider error, or a response
whose `text` may be absent (`response.text ?? '[]'`). -/
inductive AiOutcome where
  | failure : String → AiOutcome
  | success : Option String → AiOutcome
deriving DecidableEq

/-- The HTTP responses the handler can produce. -/
inductive Response where
  | tooManyRequests : Response
  | badRequest : String → Response
  | ok : List SearchResult → Response
  | serverError : String → Response
deriving DecidableEq

/-- The `POST /api/search` handler: rate limiting on the derived client
id, then body validation (`request.json().catch(() => (\x7b\x7d))` modelled by
`body.getD (Json.obj [])`), then the gateway call, sanitize and assemble.
Returns the response, the rate-limiter map after the call, and whether
the AI gateway was invoked. -/
def POST (now : Int) (ip : String) (body : Option Json) (aiResp : AiOutcome)
    (st : RLMap) : Response × RLMap × Bool :=
  match isRateLimited now ip st with
  | (true, st2) => (Response.tooManyRequests, st2, false)
  | (false, st2) =>
    match validateRequest (body.getD (Json.obj [])) with
    | Except.error msg => (Response.badRequest msg, st2, false)
    | Except.ok _prompt =>
      match aiResp with
      | AiOutcome.failure msg => (Response.serverError msg, st2, true)
      | AiOutcome.success text =>
        (Response.ok (assemble (sanitize (text.getD "[]"))), st2, true)

/-! ## Helper lemmas -/

theorem parseAiMatch_spec (j : Json) (m : AiMatch) (h : parseAiMatch j = some m) :
    m.id ∈ VALID_IDS ∧ 1 ≤ m.reason.length := by
  unfold parseAiMatch at h
  split at h
  · split at h
    · split at h
      · cases h
        simpa using (by assumption : _ ∧ _)
      · cases h
    · cases h
  · cases h

theorem strictValidate_mem (l : List Json) (ms : List AiMatch)
    (h : strictValidate l = some ms) (m : AiMatch) (hm : m ∈ ms) :
    m.id ∈ VALID_IDS ∧ 1 ≤ m.reason.length := by
  induction l generalizing ms with
  | nil =>
    unfold strictValidate at h
    cases h
    cases hm
  | cons j rest ih =>
    unfold strictValidate at h
    split at h
    · cases h
      rcases List.mem_cons.mp hm with rfl | hmem
      · exact parseAiMatch_spec j m (by assumption)
      · exact ih _ (by assumption) hmem
    · cases h

theorem lenientFilter_id_mem (l : List Json) (m : AiMatch)
    (hm : m ∈ lenientFilter l) : m.id ∈ VALID_IDS := by
  unfold lenientFilter at hm
  rw [List.mem_filterMap] at hm
  rcases hm with ⟨j, _, hj⟩
  split at hj
  · split at hj
    · split at hj
      · cases hj
        assumption
      · cases hj
    · cases hj
  · cases hj

theorem find?_inventory_some (n : Int) (item : InventoryItem)
    (h : INVENTORY.find? (fun inv => inv.id == n) = some item) :
    item.id = n ∧ n ∈ VALID_IDS := by
  have hp := List.find?_some h
  have hmem : item ∈ INVENTORY := List.mem_of_find?_eq_some h
  have hid : item.id = n := by simpa using hp
  exact ⟨hid, hid ▸ List.mem_map_of_mem (fun i => i.id) hmem⟩

theorem find?_inventory_of_mem (n : Int) (h : n ∈ VALID_IDS) :
    ∃ item, INVENTORY.find? (fun inv => inv.id == n) = some item := by
  rcases hfind : INVENTORY.find? (fun inv => inv.id == n) with _ | item
  · rcases List.mem_map.mp h with ⟨inv, hinv, hid⟩
    have := List.find?_eq_none.mp hfind inv hinv
    simp [hid] at this
  · exact ⟨item, hfind⟩

theorem mem_assemble (ms : List AiMatch) (r : SearchResult) (hr : r ∈ assemble ms) :
    ∃ m ∈ ms, r.id = m.id ∧ r.reason = m.reason ∧ r.id ∈ VALID_IDS := by
  unfold assemble at hr
  rw [List.mem_filterMap] at hr
  rcases hr with ⟨m, hm, hmr⟩
  rw [Option.map_eq_some'] at hmr
  rcases hmr with ⟨item, hfind, hr⟩
  rcases find?_inventory_some m.id item hfind with ⟨hid, hmemid⟩
  exact ⟨m, hm, by rw [← hr]; exact hid, by rw [← hr], by rw [← hr]; exact hid ▸ hmemid⟩

theorem sanitize_id_mem (raw : String) (m : AiMatch) (hm : m ∈ sanitize raw) :
    m.id ∈ VALID_IDS := by
  unfold sanitize at hm
  split at hm
  · unfold sanitizeJson at hm
    split at hm
    · exact (strictValidate_mem _ _ (by assumption) m hm).1
    · exact lenientFilter_id_mem _ m hm
  · cases hm

theorem rl_no_entry (now : Int) (ip : String) (m : RLMap) (h : mapGet m ip = none) :
    isRateLimited now ip m = (false, mapSet m ip ⟨1, now⟩) := by
  unfold isRateLimited
  rw [h]

theorem rl_expired (now : Int) (ip : String) (m : RLMap) (e : RateLimitEntry)
    (h : mapGet m ip = some e) (hw : RATE_WINDOW_MS < now - e.windowStart) :
    isRateLimited now ip m = (false, mapSet m ip ⟨1, now⟩) := by
  unfold isRateLimited
  rw [h]
  dsimp only
  rw [if_pos hw]

theorem rl_reject (now : Int) (ip : String) (m : RLMap) (e : RateLimitEntry)
    (h : mapGet m ip = some e) (hw : ¬(RATE_WINDOW_MS < now - e.windowStart))
    (hc : RATE_LIMIT ≤ e.count) :
    isRateLimited now ip m = (true, m) := by
  unfold isRateLimited
  rw [h]
  dsimp only
  rw [if_neg hw, if_pos hc]

theorem rl_incr (now : Int) (ip : String) (m : RLMap) (e : RateLimitEntry)
    (h : mapGet m ip = some e) (hw : ¬(RATE_WINDOW_MS < now - e.windowStart))
    (hc : e.count < RATE_LIMIT) :
    isRateLimited now ip m = (false, mapSet m ip ⟨e.count + 1, e.windowStart⟩) := by
  unfold isRateLimited
  rw [h]
  dsimp only
  rw [if_neg hw, if_neg (not_le.mpr hc)]

theorem mapGet_cons_self (ip : String) (v : RateLimitEntry) (rest : RLMap) :
    mapGet ((ip, v) :: rest) ip = some v := by
  simp [mapGet, List.find?_cons_of_pos]

theorem mapSet_cons_self (ip : String) (v w : RateLimitEntry) :
    mapSet [(ip, v)] ip w = [(ip, w)] := by
  simp [mapSet]

theorem POST_state (now : Int) (ip : String) (body : Option Json)
    (aiResp : AiOutcome) (st : RLMap) :
    (POST now ip body aiResp st).2.1 = (isRateLimited now ip st).2 := by
  unfold POST
  rcases h : isRateLimited now ip st with ⟨b, st2⟩
  cases b
  · dsimp only
    split
    · rfl
    · split <;> rfl
  · rfl

theorem POST_ok (now : Int) (ip : String) (body : Option Json) (aiResp : AiOutcome)
    (st : RLMap) (rs : List SearchResult) (st2 : RLMap) (called : Bool)
    (h : POST now ip body aiResp st = (Response.ok rs, st2, called)) :
    ∃ text : Option String, aiResp = AiOutcome.success text ∧
      rs = assemble (sanitize (text.getD "[]")) := by
  unfold POST at h
  split at h
  · simp at h
  · split at h
    · simp at h
    · split at h
      · simp at h
      · simp only [Prod.mk.injEq, Response.ok.injEq] at h
        exact ⟨_, rfl, h.1.symm⟩

theorem POST_invalid (now : Int) (ip : String) (body : Option Json)
    (aiResp : AiOutcome) (st : RLMap) (msg : String)
    (hrl : (isRateLimited now ip st).1 = false)
    (hv : validateRequest (body.getD (Json.obj [])) = Except.error msg) :
    POST now ip body aiResp st =
      (Response.badRequest msg, (isRateLimited now ip st).2, false) := by
  unfold POST
  rcases h : isRateLimited now ip st with ⟨b, st2⟩
  rw [h] at hrl
  cases b
  · dsimp only
    rw [hv]
  · cases hrl

/-! ## Claim theorems -/

/-- C1: the valid-ID set derived from the inventory is exactly [1,2,3,4,5];
for every raw AI text, every element of the match sequence produced by the
sanitizer (via the strict-schema branch or the lenient per-element filter)
has an id in that set; and every result in a 200 response of the POST
handler has an id in that set (the assembler's lookup is a second drop). -/
theorem c1_no_unknown_id_surfaced :
    VALID_IDS = [1, 2, 3, 4, 5] ∧
    (∀ raw : String, ∀ m ∈ sanitize raw, m.id ∈ VALID_IDS) ∧
    (∀ (now : Int) (ip : String) (body : Option Json) (aiResp : AiOutcome)
        (st : RLMap) (rs : List SearchResult) (st2 : RLMap) (called : Bool),
      POST now ip body aiResp st = (Response.ok rs, st2, called) →
      ∀ r ∈ rs, r.id ∈ VALID_IDS) := by
  refine ⟨rfl, fun raw m hm => sanitize_id_mem raw m hm, ?_⟩
  intro now ip body aiResp st rs st2 called h r hr
  rcases POST_ok now ip body aiResp st rs st2 called h with ⟨text, _, hrs⟩
  subst hrs
  rcases mem_assemble _ r hr with ⟨m, _, _, _, hmem⟩
  exact hmem

/-- Witness for C1 at concrete inputs: the id surfaced by sanitize on a
concrete raw text and the id surfaced in a concrete POST response are in
the whitelist. -/
theorem c1_no_unknown_id_surfaced_witness :
    (2 : Int) ∈ VALID_IDS ∧ (4 : Int) ∈ VALID_IDS := by
  constructor
  · exact c1_no_unknown_id_surfaced.2.1 "[\x7b\"id\":2,\"reason\":\"z\"\x7d]"
      ⟨2, "z"⟩ (by decide)
  · exact c1_no_unknown_id_surfaced.2.2 0 "203.0.113.7"
      (some (Json.obj [("prompt", Json.str "beach")]))
      (AiOutcome.success (some "[\x7b\"id\":4,\"reason\":\"m\"\x7d]")) []
      [⟨4, "Surf & Chill Retreat", "Arugam Bay", 80,
        ["beach", "surfing", "young-vibe"], "m"⟩]
      [("203.0.113.7", ⟨1, 0⟩)] true rfl
      ⟨4, "Surf & Chill Retreat", "Arugam Bay", 80,
        ["beach", "surfing", "young-vibe"], "m"⟩ (by decide)

/-- C2 counterexample: on raw AI output [{"id":1,"reason":""}] strict
validation fails, the lenient filter keeps the element because its reason
is a string (although empty), and the final 200 response carries an
empty-string reason. -/
theorem c2_empty_reason_counterexample :
    sanitize "[\x7b\"id\":1,\"reason\":\"\"\x7d]" = [⟨1, ""⟩] ∧
    strictValidate (toCandidate (Json.arr
      [Json.obj [("id", Json.num 1), ("reason", Json.str "")]])) = none ∧
    POST 0 "client" (some (Json.obj [("prompt", Json.str "quiet hills")]))
        (AiOutcome.success (some "[\x7b\"id\":1,\"reason\":\"\"\x7d]")) [] =
      (Response.ok [⟨1, "High-Altitude Tea Trails", "Nuwara Eliya", 120,
          ["cold", "nature", "hiking"], ""⟩],
        [("client", ⟨1, 0⟩)], true) :=
  ⟨rfl, rfl, rfl⟩

/-- C2 amended: every reason surfaced in a 200 response is taken verbatim
from an element of the sanitized match sequence (never fabricated locally);
the strict-schema branch only produces non-empty reasons, while the lenient
fallback merely requires the reason to be a string, so an empty reason can
be emitted there. -/
theorem c2_reason_from_ai_amended :
    (∀ (now : Int) (ip : String) (body : Option Json) (text : Option String)
        (st : RLMap) (rs : List SearchResult) (st2 : RLMap) (called : Bool),
      POST now ip body (AiOutcome.success text) st = (Response.ok rs, st2, called) →
      ∀ r ∈ rs, ∃ m ∈ sanitize (text.getD "[]"), r.reason = m.reason ∧ r.id = m.id) ∧
    (∀ (l : List Json) (ms : List AiMatch), strictValidate l = some ms →
      ∀ m ∈ ms, 1 ≤ m.reason.length) := by
  constructor
  · intro now ip body text st rs st2 called h r hr
    rcases POST_ok now ip body _ st rs st2 called h with ⟨text', htext, hrs⟩
    cases htext
    subst hrs
    rcases mem_assemble _ r hr with ⟨m, hm, hid, hreason, _⟩
    exact ⟨m, hm, hreason, hid⟩
  · intro l ms h m hm
    exact (strictValidate_mem l ms h m hm).2

/-- Witness for the amended C2 at concrete inputs. -/
theorem c2_reason_from_ai_amended_witness :
    (∃ m ∈ sanitize "[\x7b\"id\":4,\"reason\":\"m\"\x7d]",
      (⟨4, "Surf & Chill Retreat", "Arugam Bay", 80,
        ["beach", "surfing", "young-vibe"], "m"⟩ : SearchResult).reason = m.reason ∧
      (⟨4, "Surf & Chill Retreat", "Arugam Bay", 80,
        ["beach", "surfing", "young-vibe"], "m"⟩ : SearchResult).id = m.id) ∧
    1 ≤ (⟨2, "z"⟩ : AiMatch).reason.length := by
  constructor
  · exact c2_reason_from_ai_amended.1 0 "client"
      (some (Json.obj [("prompt", Json.str "beach")]))
      (some "[\x7b\"id\":4,\"reason\":\"m\"\x7d]") []
      [⟨4, "Surf & Chill Retreat", "Arugam Bay", 80,
        ["beach", "surfing", "young-vibe"], "m"⟩]
      [("client", ⟨1, 0⟩)] true rfl
      ⟨4, "Surf & Chill Retreat", "Arugam Bay", 80,
        ["beach", "surfing", "young-vibe"], "m"⟩ (by decide)
  · exact c2_reason_from_ai_amended.2
      [Json.obj [("id", Json.num 2), ("reason", Json.str "z")]] [⟨2, "z"⟩]
      rfl ⟨2, "z"⟩ (by decide)

/-- C3: on the raw AI output
[{"id":1,"reason":"x"},{"id":99,"reason":"y"},{"id":"bad"}] the strict
whole-list validation fails, and the lenient per-element filter yields
exactly [{id: 1, reason: "x"}]: the out-of-whitelist id 99 and the
non-integer id are dropped while the valid element is kept. -/
theorem c3_partial_failure_policy :
    parseJson "[\x7b\"id\":1,\"reason\":\"x\"\x7d,\x7b\"id\":99,\"reason\":\"y\"\x7d,\x7b\"id\":\"bad\"\x7d]" =
      some (Json.arr [Json.obj [("id", Json.num 1), ("reason", Json.str "x")],
        Json.obj [("id", Json.num 99), ("reason", Json.str "y")],
        Json.obj [("id", Json.str "bad")]]) ∧
    strictValidate [Json.obj [("id", Json.num 1), ("reason", Json.str "x")],
        Json.obj [("id", Json.num 99), ("reason", Json.str "y")],
        Json.obj [("id", Json.str "bad")]] = none ∧
    lenientFilter [Json.obj [("id", Json.num 1), ("reason", Json.str "x")],
        Json.obj [("id", Json.num 99), ("reason", Json.str "y")],
        Json.obj [("id", Json.str "bad")]] = [⟨1, "x"⟩] ∧
    sanitize "[\x7b\"id\":1,\"reason\":\"x\"\x7d,\x7b\"id\":99,\"reason\":\"y\"\x7d,\x7b\"id\":\"bad\"\x7d]" =
      [⟨1, "x"⟩] :=
  ⟨rfl, rfl, rfl, rfl⟩

/-- C4: for one client starting from no entry, five calls within one
60-second window (measured from the first call's windowStart) are all
allowed with the count stepping 1..5; a sixth call in the same window is
rejected; a call made once now - windowStart exceeds the window is allowed
again and replaces the entry with count 1 and a fresh windowStart. -/
theorem c4_five_per_window_then_reset (ip : String) (t1 t2 t3 t4 t5 t6 t7 : Int)
    (h2 : t2 - t1 ≤ RATE_WINDOW_MS) (h3 : t3 - t1 ≤ RATE_WINDOW_MS)
    (h4 : t4 - t1 ≤ RATE_WINDOW_MS) (h5 : t5 - t1 ≤ RATE_WINDOW_MS)
    (h6 : t6 - t1 ≤ RATE_WINDOW_MS) (h7 : RATE_WINDOW_MS < t7 - t1) :
    isRateLimited t1 ip [] = (false, [(ip, ⟨1, t1⟩)]) ∧
    isRateLimited t2 ip [(ip, ⟨1, t1⟩)] = (false, [(ip, ⟨2, t1⟩)]) ∧
    isRateLimited t3 ip [(ip, ⟨2, t1⟩)] = (false, [(ip, ⟨3, t1⟩)]) ∧
    isRateLimited t4 ip [(ip, ⟨3, t1⟩)] = (false, [(ip, ⟨4, t1⟩)]) ∧
    isRateLimited t5 ip [(ip, ⟨4, t1⟩)] = (false, [(ip, ⟨5, t1⟩)]) ∧
    isRateLimited t6 ip [(ip, ⟨5, t1⟩)] = (true, [(ip, ⟨5, t1⟩)]) ∧
    isRateLimited t7 ip [(ip, ⟨5, t1⟩)] = (false, [(ip, ⟨1, t7⟩)]) := by
  refine ⟨rfl, ?_, ?_, ?_, ?_, ?_, ?_⟩
  · rw [rl_incr t2 ip _ ⟨1, t1⟩ (mapGet_cons_self ip _ []) (not_lt.mpr h2) (show (1 : Nat) < RATE_LIMIT by decide),
      mapSet_cons_self]
  · rw [rl_incr t3 ip _ ⟨2, t1⟩ (mapGet_cons_self ip _ []) (not_lt.mpr h3) (show (2 : Nat) < RATE_LIMIT by decide),
      mapSet_cons_self]
  · rw [rl_incr t4 ip _ ⟨3, t1⟩ (mapGet_cons_self ip _ []) (not_lt.mpr h4) (show (3 : Nat) < RATE_LIMIT by decide),
      mapSet_cons_self]
  · rw [rl_incr t5 ip _ ⟨4, t1⟩ (mapGet_cons_self ip _ []) (not_lt.mpr h5) (show (4 : Nat) < RATE_LIMIT by decide),
      mapSet_cons_self]
  · rw [rl_reject t6 ip _ ⟨5, t1⟩ (mapGet_cons_self ip _ []) (not_lt.mpr h6) (show RATE_LIMIT ≤ (5 : Nat) by decide)]
  · rw [rl_expired t7 ip _ ⟨5, t1⟩ (mapGet_cons_self ip _ []) h7, mapSet_cons_self]

/-- Witness for C4 at a concrete client and concrete call times. -/
theorem c4_five_per_window_then_reset_witness :
    isRateLimited 0 "203.0.113.7" [] = (false, [("203.0.113.7", ⟨1, 0⟩)]) ∧
    isRateLimited 10000 "203.0.113.7" [("203.0.113.7", ⟨1, 0⟩)] =
      (false, [("203.0.113.7", ⟨2, 0⟩)]) ∧
    isRateLimited 20000 "203.0.113.7" [("203.0.113.7", ⟨2, 0⟩)] =
      (false, [("203.0.113.7", ⟨3, 0⟩)]) ∧
    isRateLimited 30000 "203.0.113.7" [("203.0.113.7", ⟨3, 0⟩)] =
      (false, [("203.0.113.7", ⟨4, 0⟩)]) ∧
    isRateLimited 40000 "203.0.113.7" [("203.0.113.7", ⟨4, 0⟩)] =
      (false, [("203.0.113.7", ⟨5, 0⟩)]) ∧
    isRateLimited 50000 "203.0.113.7" [("203.0.113.7", ⟨5, 0⟩)] =
      (true, [("203.0.113.7", ⟨5, 0⟩)]) ∧
    isRateLimited 70000 "203.0.113.7" [("203.0.113.7", ⟨5, 0⟩)] =
      (false, [("203.0.113.7", ⟨1, 70000⟩)]) :=
  c4_five_per_window_then_reset "203.0.113.7" 0 10000 20000 30000 40000 50000 70000
    (by decide) (by decide) (by decide) (by decide) (by decide) (by decide)

/-- C5: when the limiter rejects (entry in an active window with count at
the limit), it returns not-allowed and the map is returned unchanged, so
the rejected client's entry and every other client's entry are untouched. -/
theorem c5_reject_without_mutation (now : Int) (ip : String) (m : RLMap)
    (e : RateLimitEntry) (hget : mapGet m ip = some e)
    (hw : ¬(RATE_WINDOW_MS < now - e.windowStart)) (hc : RATE_LIMIT ≤ e.count) :
    isRateLimited now ip m = (true, m) ∧
    ∀ k : String, mapGet (isRateLimited now ip m).2 k = mapGet m k := by
  have h := rl_reject now ip m e hget hw hc
  exact ⟨h, fun k => by rw [h]⟩

/-- Witness for C5: a concrete two-client map where one client is at the
limit; the rejecting call leaves the whole map unchanged. -/
theorem c5_reject_without_mutation_witness :
    isRateLimited 1000 "a" [("a", ⟨5, 0⟩), ("b", ⟨2, 0⟩)] =
      (true, [("a", ⟨5, 0⟩), ("b", ⟨2, 0⟩)]) :=
  (c5_reject_without_mutation 1000 "a" [("a", ⟨5, 0⟩), ("b", ⟨2, 0⟩)] ⟨5, 0⟩
    (by decide) (by decide) (by decide)).1

/-- C6: the request validator accepts every object body whose prompt field
is a string of length 1..500 (returning the prompt), rejects an empty
prompt, an over-length prompt and a missing prompt field with their
specific first-violation messages, and a failed validation makes the
handler answer 400 with that message without calling the AI gateway. -/
theorem c6_request_validation :
    (∀ (fields : List (String × Json)) (s : String),
      getField fields "prompt" = some (Json.str s) → 1 ≤ s.length → s.length ≤ 500 →
      validateRequest (Json.obj fields) = Except.ok s) ∧
    (∀ fields : List (String × Json),
      getField fields "prompt" = some (Json.str "") →
      validateRequest (Json.obj fields) = Except.error "prompt cannot be empty") ∧
    (∀ (fields : List (String × Json)) (s : String),
      getField fields "prompt" = some (Json.str s) → 500 < s.length →
      validateRequest (Json.obj fields) =
        Except.error "prompt must be 500 characters or fewer") ∧
    (∀ fields : List (String × Json), getField fields "prompt" = none →
      validateRequest (Json.obj fields) = Except.error "prompt is required") ∧
    (∀ (now : Int) (ip : String) (body : Option Json) (aiResp : AiOutcome)
        (st : RLMap) (msg : String),
      (isRateLimited now ip st).1 = false →
      validateRequest (body.getD (Json.obj [])) = Except.error msg →
      POST now ip body aiResp st =
        (Response.badRequest msg, (isRateLimited now ip st).2, false)) := by
  refine ⟨?_, ?_, ?_, ?_, fun now ip body aiResp st msg h1 h2 =>
    POST_invalid now ip body aiResp st msg h1 h2⟩
  · intro fields s hf h1 h500
    simp only [validateRequest]
    rw [hf]
    dsimp only
    rw [if_neg (by omega), if_neg (not_lt.mpr h500)]
  · intro fields hf
    simp only [validateRequest]
    rw [hf]
    rfl
  · intro fields s hf h500
    simp only [validateRequest]
    rw [hf]
    dsimp only
    rw [if_neg (by omega), if_pos h500]
  · intro fields hf
    simp only [validateRequest]
    rw [hf]

/-- Witness for C6 at concrete bodies: a 2-character prompt is accepted,
the empty and missing prompts are rejected with their messages, and a
concrete invalid request is answered 400 with no AI call. -/
theorem c6_request_validation_witness :
    validateRequest (Json.obj [("prompt", Json.str "hi")]) = Except.ok "hi" ∧
    validateRequest (Json.obj [("prompt", Json.str "")]) =
      Except.error "prompt cannot be empty" ∧
    validateRequest (Json.obj []) = Except.error "prompt is required" ∧
    POST 0 "client" (some (Json.obj [("prompt", Json.str "")]))
        (AiOutcome.success (some "[]")) [] =
      (Response.badRequest "prompt cannot be empty",
        (isRateLimited 0 "client" []).2, false) :=
  ⟨c6_request_validation.1 [("prompt", Json.str "hi")] "hi" rfl (by decide) (by decide),
   c6_request_validation.2.1 [("prompt", Json.str "")] rfl,
   c6_request_validation.2.2.2.1 [] rfl,
   c6_request_validation.2.2.2.2 0 "client" (some (Json.obj [("prompt", Json.str "")]))
     (AiOutcome.success (some "[]")) [] "prompt cannot be empty" rfl rfl⟩

/-- C7: the sanitizer is total (a plain Lean function) and degrades to the
empty sequence on every raw text that does not parse as JSON; in
particular "not json" yields the empty sequence rather than an error. -/
theorem c7_sanitize_never_throws :
    sanitize "not json" = [] ∧
    (∀ raw : String, parseJson raw = none → sanitize raw = []) := by
  refine ⟨rfl, ?_⟩
  intro raw h
  unfold sanitize
  rw [h]

/-- Witness for C7 at another concrete non-JSON input. -/
theorem c7_sanitize_never_throws_witness : sanitize "%!?" = [] :=
  c7_sanitize_never_throws.2 "%!?" rfl

/-- C8: the candidate list comes from the first array-valued member when
the parsed value is an object ({"matches": [...]} yields its inner array,
end to end), and is empty whenever the parsed value is neither an array
nor an object with an array-valued member. -/
theorem c8_envelope_tolerance :
    sanitize "\x7b\"matches\":[\x7b\"id\":2,\"reason\":\"z\"\x7d]\x7d" = [⟨2, "z"⟩] ∧
    toCandidate (Json.obj [("matches",
      Json.arr [Json.obj [("id", Json.num 2), ("reason", Json.str "z")]])]) =
      [Json.obj [("id", Json.num 2), ("reason", Json.str "z")]] ∧
    (∀ j : Json, j.isArr = false →
      (∀ fields, j = Json.obj fields → ∀ p ∈ fields, (p.2).isArr = false) →
      toCandidate j = []) := by
  refine ⟨rfl, rfl, ?_⟩
  intro j hnotarr hobj
  cases j with
  | null => rfl
  | bool b => rfl
  | num n => rfl
  | str s => rfl
  | arr xs => simp [Json.isArr] at hnotarr
  | obj fields =>
    simp only [toCandidate]
    have hnone : (fields.map Prod.snd).find? Json.isArr = none := by
      rw [List.find?_eq_none]
      intro x hx
      rcases List.mem_map.mp hx with ⟨p, hp, rfl⟩
      simp [hobj fields rfl p hp]
    rw [hnone]

/-- Witness for C8: a number has an empty candidate list. -/
theorem c8_envelope_tolerance_witness : toCandidate (Json.num 7) = [] :=
  c8_envelope_tolerance.2.2 (Json.num 7) rfl (fun fields h => by cases h)

/-- C9: the result assembler emits the joined results in the same relative
order as the validated matches it was given (the AI's returned order):
projected to (id, reason), the output is exactly the order-preserving
filter of the input to whitelisted ids, so dropping unknown ids never
reorders the survivors. -/
theorem c9_assemble_preserves_ai_order (ms : List AiMatch) :
    (assemble ms).map (fun r => (r.id, r.reason)) =
      (ms.filter (fun m => m.id ∈ VALID_IDS)).map (fun m => (m.id, m.reason)) := by
  induction ms with
  | nil => rfl
  | cons m rest ih =>
    by_cases hmem : m.id ∈ VALID_IDS
    · rcases find?_inventory_of_mem m.id hmem with ⟨item, hfind⟩
      rcases find?_inventory_some m.id item hfind with ⟨hid, _⟩
      simp only [assemble, List.filterMap_cons, hfind, Option.map_some', List.map_cons,
        List.filter_cons, hmem, decide_True, if_true]
      rw [← assemble]
      simp [ih, hid]
    · have hfind : INVENTORY.find? (fun inv => inv.id == m.id) = none := by
        rw [List.find?_eq_none]
        intro x hx hbeq
        apply hmem
        have hxid : x.id = m.id := by simpa using hbeq
        rw [← hxid]
        exact List.mem_map_of_mem (fun i => i.id) hx
      simp only [assemble, List.filterMap_cons, hfind, Option.map_none',
        List.filter_cons, hmem, decide_False, if_false]
      rw [← assemble]
      exact ih

/-- C10: the limiter's check-and-record runs before body parsing and prompt
validation: the rate-limiter state after any POST call is exactly the state
after the limiter call, and a request from a fresh client whose body fails
validation is answered 400 while still recording count 1 for that client. -/
theorem c10_quota_consumed_despite_validation_failure :
    (∀ (now : Int) (ip : String) (body : Option Json) (aiResp : AiOutcome)
        (st : RLMap),
      (POST now ip body aiResp st).2.1 = (isRateLimited now ip st).2) ∧
    (∀ (now : Int) (ip : String) (aiResp : AiOutcome),
      POST now ip (some (Json.obj [])) aiResp [] =
        (Response.badRequest "prompt is required", [(ip, ⟨1, now⟩)], false)) := by
  refine ⟨POST_state, ?_⟩
  intro now ip aiResp
  have hrl : isRateLimited now ip [] = (false, [(ip, ⟨1, now⟩)]) := rfl
  have h := POST_invalid now ip (some (Json.obj [])) aiResp []
    "prompt is required" (by rw [hrl]) rfl
  rw [h, hrl]

/-- Witness for C10 at a concrete call whose body fails validation. -/
theorem c10_quota_consumed_despite_validation_failure_witness :
    (POST 5 "client" none (AiOutcome.success (some "[]")) []).2.1 =
      (isRateLimited 5 "client" []).2 ∧
    POST 5 "client" (some (Json.obj [])) (AiOutcome.success (some "[]")) [] =
      (Response.badRequest "prompt is required", [("client", ⟨1, 5⟩)], false) :=
  ⟨c10_quota_consumed_despite_validation_failure.1 5 "client" none
      (AiOutcome.success (some "[]")) [],
   c10_quota_consumed_despite_validation_failure.2 5 "client"
      (AiOutcome.success (some "[]"))⟩
